import Mathlib

/-!
Verification of the frame-synthesis and video-assembly pipeline of the
video-generator service.  The definitions below are a shallow embedding of
`pages/api/generate-video.ts` (together with `lib/templates.ts`): the pure
per-frame zoom geometry, the easing curve, the XML escaping used by the text
overlay, the font-size computation of both overlay paths, the temporary-path
generation, and the orchestration of the handler (its validation order, the
side-effecting steps it performs, and which temporary files each control-flow
path creates and deletes).
-/

namespace VideoGen

/-! ## Zoom geometry (`generate-video.ts`, zoom branch) -/

/-- Sine ease-in-out from `easeInOutSine` in `generate-video.ts`:
`(t) => (1 - Math.cos(Math.PI * t)) / 2`. -/
noncomputable def easeInOutSine (t : ℝ) : ℝ := (1 - Real.cos (Real.pi * t)) / 2

/-- Normalized time of frame `i` out of `N`:
`const t = frames === 1 ? 1 : i / (frames - 1)`. -/
noncomputable def tOf (i N : ℕ) : ℝ := if N = 1 then 1 else (i : ℝ) / ((N : ℝ) - 1)

/-- Minimum scale factor covering the 1280x720 output canvas:
`const minFactor = Math.max(1280 / iw, 720 / ih)`. -/
noncomputable def minFactor (iw ih : ℕ) : ℝ := max (1280 / (iw : ℝ)) (720 / (ih : ℝ))

/-- Scale factor of frame `i`:
`let factor = 1 + zoomFactor * et; factor = Math.max(factor, minFactor)`
with `zoomFactor = 0.6`. -/
noncomputable def scaleFactor (iw ih i N : ℕ) : ℝ :=
  max (1 + 0.6 * easeInOutSine (tOf i N)) (minFactor iw ih)

/-- The crop window computed per frame in the zoom branch:
`floatScaledW = iw * factor`, `scaledW = Math.round(floatScaledW)`,
`left = Math.max(0, Math.round((floatScaledW - 1280) / 2))`,
`top = Math.max(0, Math.round((floatScaledH - 720) / 2))` and the extract
call uses `width: Math.min(1280, scaledW), height: Math.min(720, scaledH)`.
`Math.round x = ⌊x + 1/2⌋`, which is Mathlib's `round`. -/
structure CropWindow where
  scaledW : ℤ
  scaledH : ℤ
  left : ℤ
  top : ℤ
  width : ℤ
  height : ℤ

noncomputable def cropWindow (iw ih : ℕ) (factor : ℝ) : CropWindow :=
  { scaledW := round ((iw : ℝ) * factor)
    scaledH := round ((ih : ℝ) * factor)
    left := max 0 (round (((iw : ℝ) * factor - 1280) / 2))
    top := max 0 (round (((ih : ℝ) * factor - 720) / 2))
    width := min 1280 (round ((iw : ℝ) * factor))
    height := min 720 (round ((ih : ℝ) * factor)) }

/-! ## XML escaping of the overlay text (`escapeXml` in both branches)

The code builds the escaped text by five chained global `String.replace`
calls: `&` first, then `<`, `>`, `"` and the apostrophe.  Strings are
modelled as `List Char`; a global single-character replace is `replaceAll`.
-/

def quotChar : Char := Char.ofNat 34

def aposChar : Char := Char.ofNat 39

/-- `str.replace(/c/g, rep)` for a single-character pattern `c`. -/
def replaceAll (c : Char) (rep : List Char) : List Char → List Char
  | [] => []
  | x :: xs => if x = c then rep ++ replaceAll c rep xs else x :: replaceAll c rep xs

def ampEnt : List Char := ['&', 'a', 'm', 'p', ';']

def ltEnt : List Char := ['&', 'l', 't', ';']

def gtEnt : List Char := ['&', 'g', 't', ';']

def quotEnt : List Char := ['&', 'q', 'u', 'o', 't', ';']

def aposEnt : List Char := ['&', 'a', 'p', 'o', 's', ';']

/-- `escapeXml` of the zoom branch (`generate-video.ts` line 119):
`str.replace(/&/g,'&amp;').replace(/</g,'&lt;').replace(/>/g,'&gt;')
.replace(/\x22/g,'&quot;').replace(/\x27/g,'&apos;')`. -/
def escapeXmlZoom (s : List Char) : List Char :=
  replaceAll aposChar aposEnt
    (replaceAll quotChar quotEnt
      (replaceAll '>' gtEnt
        (replaceAll '<' ltEnt
          (replaceAll '&' ampEnt s))))

/-- `escapeXml` of the slide branch (`generate-video.ts` line 162); its body
is character-for-character the same chain of replacements. -/
def escapeXmlSlide (s : List Char) : List Char :=
  replaceAll aposChar aposEnt
    (replaceAll quotChar quotEnt
      (replaceAll '>' gtEnt
        (replaceAll '<' ltEnt
          (replaceAll '&' ampEnt s))))

/-- Per-character description of the composed escaping: each of the five XML
metacharacters becomes its entity, every other character is kept. -/
def escChar (c : Char) : List Char :=
  if c = '&' then ampEnt
  else if c = '<' then ltEnt
  else if c = '>' then gtEnt
  else if c = quotChar then quotEnt
  else if c = aposChar then aposEnt
  else [c]

/-- A character list is well escaped when it contains none of `< > " '` and
every ampersand starts one of the five entities. -/
def wellEscaped : List Char → Bool
  | [] => true
  | c :: rest =>
    if c = '<' || c = '>' || c = quotChar || c = aposChar then false
    else if c = '&' then
      match rest with
      | 'a' :: 'm' :: 'p' :: ';' :: r => wellEscaped r
      | 'l' :: 't' :: ';' :: r => wellEscaped r
      | 'g' :: 't' :: ';' :: r => wellEscaped r
      | 'q' :: 'u' :: 'o' :: 't' :: ';' :: r => wellEscaped r
      | 'a' :: 'p' :: 'o' :: 's' :: ';' :: r => wellEscaped r
      | _ => false
    else wellEscaped rest

/-! ## Overlay font size

Zoom branch (`generate-video.ts` line 121):
`const fontSize = Math.max(28, Math.round(Math.min(scaledW, scaledH) / 24))`
while the SVG canvas it renders onto is fixed at 1280x720 (line 122).
Slide branch (lines 160-164):
`const fontSize = Math.max(28, Math.round(w / 24))` with an SVG canvas of
`w` x `h` (the metadata of the slide input image).  The division happens on
exact values here (`ℚ`), `Math.round q = ⌊q + 1/2⌋ = round q`.
-/

structure SvgOverlay where
  canvasW : ℤ
  canvasH : ℤ
  fontSize : ℤ
deriving DecidableEq

/-- Font size of the zoom-branch text overlay. -/
def zoomTextFontSize (scaledW scaledH : ℤ) : ℤ :=
  max 28 (round ((min scaledW scaledH : ℚ) / 24))

/-- Font size of the slide-branch text overlay. -/
def slideTextFontSize (w : ℤ) : ℤ :=
  max 28 (round ((w : ℚ) / 24))

/-- The SVG overlay of one zoom frame: hard-coded 1280x720 canvas, font size
computed from the scaled image dimensions. -/
def zoomSvgOverlay (scaledW scaledH : ℤ) : SvgOverlay :=
  ⟨1280, 720, zoomTextFontSize scaledW scaledH⟩

/-- The SVG overlay of the slide composite: canvas is the source image
`w` x `h`, font size computed from `w` alone. -/
def slideSvgOverlay (w h : ℤ) : SvgOverlay :=
  ⟨w, h, slideTextFontSize w⟩

/-- Modelled from the spec sentence under test for C7: font size
`max(28, min(canvasW, canvasH)/24)` of the canvas the text is rendered
onto. -/
def specFontSize (canvasW canvasH : ℤ) : ℚ :=
  max 28 ((min canvasW canvasH : ℚ) / 24)

/-! ## Temporary file paths (`generate-video.ts` lines 67-68, 90, 165)

Each path interpolates `Date.now()` (an integer count of milliseconds) into
a template literal:
`input-${Date.now()}.jpg`, `output-${Date.now()}.mp4`,
`frames-${Date.now()}`, `slide-input-${Date.now()}.png`.
-/

/-- Decimal rendering of a natural number, the JS `${n}` interpolation. -/
def decimalRepr (n : ℕ) : List Char :=
  if n = 0 then ['0'] else ((Nat.digits 10 n).map Nat.digitChar).reverse

inductive PathKind
  | inputImage
  | outputVideo
  | framesDir
  | slideInput
deriving DecidableEq

def pathHead : PathKind → List Char
  | .inputImage => ['i', 'n', 'p', 'u', 't', '-']
  | .outputVideo => ['o', 'u', 't', 'p', 'u', 't', '-']
  | .framesDir => ['f', 'r', 'a', 'm', 'e', 's', '-']
  | .slideInput => ['s', 'l', 'i', 'd', 'e', '-', 'i', 'n', 'p', 'u', 't', '-']

def pathTail : PathKind → List Char
  | .inputImage => ['.', 'j', 'p', 'g']
  | .outputVideo => ['.', 'm', 'p', '4']
  | .framesDir => []
  | .slideInput => ['.', 'p', 'n', 'g']

/-- The temporary path of kind `k` created with timestamp `now`. -/
def tmpPath (k : PathKind) (now : ℕ) : List Char :=
  pathHead k ++ (decimalRepr now ++ pathTail k)

/-- A generation run, identified by `runId`, observing the millisecond clock
value `now` when it builds its temporary paths. -/
structure RunCtx where
  runId : ℕ
  now : ℕ
deriving DecidableEq

def runPaths (c : RunCtx) (k : PathKind) : List Char := tmpPath k c.now

/-! ## Templates (`lib/templates.ts`) -/

inductive Style
  | zoom
  | slide
deriving DecidableEq

structure Template where
  id : String
  name : String
  style : Style
  musicFile : String
  durationSeconds : ℕ
deriving DecidableEq

def templates : List Template :=
  [⟨"zoom-ambient", "Ambient Zoom", .zoom, "/musics/ambient.mp3", 6⟩,
   ⟨"slide-funky", "Funky Slide", .slide, "/musics/funky.mp3", 6⟩]

def httpPost : String := "POST"

def emptyStr : String := ""

def imgKeyStr : String := "uploads/img.jpg"

def zoomAmbientId : String := "zoom-ambient"

def threeSpaces : String := "   "

def getTemplateById (id : String) : Option Template :=
  templates.find? (fun t => t.id == id)

/-! ## The request handler (`pages/api/generate-video.ts`, `handler`)

The handler's control flow is embedded as a function from the request body,
the availability of an ffmpeg binary, and a fault assignment for each
fallible external step, to an outcome recording the HTTP-level result, the
side-effecting steps performed, and the temporary files created and deleted
on that path.  Fields mirror the source: validation happens in source order
(missing params, template lookup, ffmpeg check), cleanup statements appear
only where the source performs them (`fs.rmSync(framesDir)` after a
successful zoom encode, `fs.unlinkSync(slideInput)` after a successful slide
encode, and `fs.unlinkSync` of the input image and output video after a
successful upload); the `catch` block at the end of the handler performs no
cleanup.
-/

/-- Request body, `req.body as Body`; `none` models an absent field and the
empty string is falsy like in JS. -/
structure Body where
  imageKey : Option String
  templateId : Option String
  productName : Option String
  includeText : Option Bool
deriving DecidableEq

/-- JS falsiness of an optional string field. -/
def jsFalsyStr : Option String → Bool
  | none => true
  | some s => s == ""

/-- JS `String.prototype.trim`: strip whitespace from both ends. -/
def jsTrim (s : List Char) : List Char :=
  ((s.dropWhile Char.isWhitespace).reverse.dropWhile Char.isWhitespace).reverse

/-- `const showText = includeText !== false && !!productName &&
productName.trim().length > 0`. -/
def showTextOf (includeText : Option Bool) (productName : Option String) : Bool :=
  (includeText != some false) && (!jsFalsyStr productName) &&
    decide (0 < (jsTrim (productName.getD emptyStr).toList).length)

/-- Temporary files a run can create: the written input image, the per-frame
frames directory (with its frames), the slide composite, the encoded output
video. -/
inductive TmpFile
  | inputImage
  | framesDir
  | slideComposite
  | outputVideo
deriving DecidableEq

/-- Fault assignment for the fallible external steps of one run. -/
structure Faults where
  getFails : Bool
  metadataFails : Bool
  renderFails : Bool
  encodeFails : Bool
  compositeFails : Bool
  uploadFails : Bool
deriving DecidableEq

def noFaults : Faults := ⟨false, false, false, false, false, false⟩

/-- Observable side-effecting steps of a run, in execution order. -/
inductive Event
  | storageGet
  | writeInputImage
  | readMetadata
  | renderFrames
  | encode
  | storagePut
deriving DecidableEq

inductive HResult
  | methodNotAllowed
  | missingParams
  | invalidTemplate
  | ffmpegMissing
  | serverError
  | okUrl
deriving DecidableEq

structure Outcome where
  result : HResult
  events : List Event
  created : List TmpFile
  deleted : List TmpFile
deriving DecidableEq

/-- Zoom branch of the `try` block, entered after the input image was
downloaded and written: `mkdirSync(framesDir)`, `sharp.metadata()`, the
per-frame render loop, the ffmpeg promise, `rmSync(framesDir)`, then the
shared read-upload-unlink tail.  A thrown error jumps to the handler's
`catch`, which does not delete anything. -/
def runZoom (f : Faults) : Outcome :=
  if f.metadataFails then
    ⟨.serverError, [.storageGet, .writeInputImage, .readMetadata],
     [.inputImage, .framesDir], []⟩
  else if f.renderFails then
    ⟨.serverError, [.storageGet, .writeInputImage, .readMetadata, .renderFrames],
     [.inputImage, .framesDir], []⟩
  else if f.encodeFails then
    ⟨.serverError, [.storageGet, .writeInputImage, .readMetadata, .renderFrames, .encode],
     [.inputImage, .framesDir], []⟩
  else if f.uploadFails then
    ⟨.serverError,
     [.storageGet, .writeInputImage, .readMetadata, .renderFrames, .encode, .storagePut],
     [.inputImage, .framesDir, .outputVideo], [.framesDir]⟩
  else
    ⟨.okUrl,
     [.storageGet, .writeInputImage, .readMetadata, .renderFrames, .encode, .storagePut],
     [.inputImage, .framesDir, .outputVideo], [.framesDir, .inputImage, .outputVideo]⟩

/-- Slide branch of the `try` block.  The text-composite step is wrapped in
its own `try` whose `catch` only logs and proceeds without text, so a
composite failure creates no file and aborts nothing; the composite file is
unlinked right after a successful encode. -/
def runSlide (showText : Bool) (f : Faults) : Outcome :=
  let comp := showText && !f.compositeFails
  let baseCreated := if comp then [TmpFile.inputImage, .slideComposite] else [.inputImage]
  if f.encodeFails then
    ⟨.serverError, [.storageGet, .writeInputImage, .encode], baseCreated, []⟩
  else if f.uploadFails then
    ⟨.serverError, [.storageGet, .writeInputImage, .encode, .storagePut],
     baseCreated ++ [.outputVideo], if comp then [.slideComposite] else []⟩
  else
    ⟨.okUrl, [.storageGet, .writeInputImage, .encode, .storagePut],
     baseCreated ++ [.outputVideo],
     (if comp then [TmpFile.slideComposite] else []) ++ [.inputImage, .outputVideo]⟩

/-- The handler: method check, `if (!imageKey || !templateId)`,
`getTemplateById`, the ffmpeg availability check, then the `try` block
starting with `getObjectBuffer` and branching on the template style. -/
def handler (method : String) (body : Body) (ffmpegAvailable : Bool) (f : Faults) : Outcome :=
  if method ≠ "POST" then ⟨.methodNotAllowed, [], [], []⟩
  else if jsFalsyStr body.imageKey || jsFalsyStr body.templateId then
    ⟨.missingParams, [], [], []⟩
  else
    match getTemplateById (body.templateId.getD emptyStr) with
    | none => ⟨.invalidTemplate, [], [], []⟩
    | some template =>
      if !ffmpegAvailable then ⟨.ffmpegMissing, [], [], []⟩
      else if f.getFails then ⟨.serverError, [.storageGet], [], []⟩
      else if template.style = .zoom then runZoom f
      else runSlide (showTextOf body.includeText body.productName) f

/-- A zoom request with all parameters present and text disabled. -/
def bodyZoom : Body := ⟨some imgKeyStr, some zoomAmbientId, none, none⟩

/-- A zoom request whose product name is whitespace-only while text was
explicitly requested. -/
def bodyWhitespace : Body :=
  ⟨some imgKeyStr, some zoomAmbientId, some threeSpaces, some true⟩

/-- Faults where only the ffmpeg encode step fails. -/
def encodeFailFaults : Faults := ⟨false, false, false, true, false, false⟩

/-! ## Lemmas about rounding and the easing curve -/

theorem round_mono_of_le {x y : ℝ} (h : x ≤ y) : round x ≤ round y := by
  rw [round_eq, round_eq]
  exact Int.floor_le_floor (by linarith)

/-- One axis of the crop-window bound: if the scaled size `S` is at least the
output size `O`, then the centered origin plus the clamped extent stays inside
the rounded scaled size. -/
theorem crop_axis_bound (S : ℝ) (O : ℤ) (hO : (O : ℝ) ≤ S) :
    max 0 (round ((S - (O : ℝ)) / 2)) + min O (round S) ≤ round S := by
  have h0 : (0 : ℝ) ≤ S - (O : ℝ) := by linarith
  have hround : round S = round (S - (O : ℝ)) + O := by
    have h := round_add_int (S - (O : ℝ)) O
    have h2 : S - (O : ℝ) + (O : ℝ) = S := by ring
    rw [h2] at h
    exact h
  have hr1 : round ((S - (O : ℝ)) / 2) ≤ round (S - (O : ℝ)) :=
    round_mono_of_le (by linarith)
  have hr0 : (0 : ℤ) ≤ round (S - (O : ℝ)) := by
    have h := round_mono_of_le h0
    simpa using h
  have hmax : max 0 (round ((S - (O : ℝ)) / 2)) ≤ round (S - (O : ℝ)) := max_le hr0 hr1
  have hmin : min O (round S) ≤ O := min_le_left _ _
  linarith [hmax, hmin, hround]

theorem easeInOutSine_nonneg (t : ℝ) : 0 ≤ easeInOutSine t := by
  have h := Real.cos_le_one (Real.pi * t)
  unfold easeInOutSine
  linarith

theorem easeInOutSine_le_one (t : ℝ) : easeInOutSine t ≤ 1 := by
  have h := Real.neg_one_le_cos (Real.pi * t)
  unfold easeInOutSine
  linarith

theorem easeInOutSine_monotone {t u : ℝ} (ht : 0 ≤ t) (htu : t ≤ u) (hu : u ≤ 1) :
    easeInOutSine t ≤ easeInOutSine u := by
  have hpi : (0 : ℝ) < Real.pi := Real.pi_pos
  have h1 : 0 ≤ Real.pi * t := mul_nonneg hpi.le ht
  have h2 : Real.pi * u ≤ Real.pi := by
    have h := mul_le_mul_of_nonneg_left hu hpi.le
    simpa using h
  have h3 : Real.pi * t ≤ Real.pi * u := mul_le_mul_of_nonneg_left htu hpi.le
  have hcos : Real.cos (Real.pi * u) ≤ Real.cos (Real.pi * t) :=
    Real.cos_le_cos_of_nonneg_of_le_pi h1 h2 h3
  unfold easeInOutSine
  linarith

/-- C3: the easing function is `(1 - cos(pi t)) / 2`; it maps `[0,1]` into
`[0,1]`, takes the value `0` at `0` and `1` at `1`, is monotone
non-decreasing on `[0,1]`, and is symmetric around `t = 1/2`. -/
theorem C3_ease_in_out_sine_contract (t u : ℝ)
    (ht0 : 0 ≤ t) (ht1 : t ≤ 1) (htu : t ≤ u) (hu1 : u ≤ 1) :
    easeInOutSine t = (1 - Real.cos (Real.pi * t)) / 2 ∧
    0 ≤ easeInOutSine t ∧ easeInOutSine t ≤ 1 ∧
    easeInOutSine 0 = 0 ∧ easeInOutSine 1 = 1 ∧
    easeInOutSine t ≤ easeInOutSine u ∧
    easeInOutSine (1 - t) = 1 - easeInOutSine t := by
  refine ⟨rfl, easeInOutSine_nonneg t, easeInOutSine_le_one t, ?_, ?_, ?_, ?_⟩
  · unfold easeInOutSine
    simp
  · unfold easeInOutSine
    simp [Real.cos_pi]
  · exact easeInOutSine_monotone ht0 htu hu1
  · unfold easeInOutSine
    have h1 : Real.pi * (1 - t) = Real.pi - Real.pi * t := by ring
    rw [h1, Real.cos_pi_sub]
    ring

/-- Witness for C3 at `t = 0`, `u = 1`. -/
theorem C3_witness :
    (0 : ℝ) ≤ 0 ∧ (0 : ℝ) ≤ 1 ∧
    (easeInOutSine 0 = (1 - Real.cos (Real.pi * 0)) / 2 ∧
     0 ≤ easeInOutSine 0 ∧ easeInOutSine 0 ≤ 1 ∧
     easeInOutSine 0 = 0 ∧ easeInOutSine 1 = 1 ∧
     easeInOutSine 0 ≤ easeInOutSine 1 ∧
     easeInOutSine (1 - 0) = 1 - easeInOutSine 0) :=
  ⟨le_refl 0, by norm_num,
   C3_ease_in_out_sine_contract 0 1 (by norm_num) (by norm_num) (by norm_num) (by norm_num)⟩

theorem minFactor_le_scaleFactor (iw ih i N : ℕ) :
    minFactor iw ih ≤ scaleFactor iw ih i N :=
  le_max_right _ _

theorem scaled_width_ge (iw ih i N : ℕ) (hiw : 1 ≤ iw) :
    (1280 : ℝ) ≤ (iw : ℝ) * scaleFactor iw ih i N := by
  have hiw0 : (0 : ℝ) < (iw : ℝ) := by exact_mod_cast hiw
  have h1 : (1280 : ℝ) / (iw : ℝ) ≤ scaleFactor iw ih i N :=
    le_trans (le_max_left _ _) (minFactor_le_scaleFactor iw ih i N)
  have h2 : (iw : ℝ) * ((1280 : ℝ) / (iw : ℝ)) ≤ (iw : ℝ) * scaleFactor iw ih i N :=
    mul_le_mul_of_nonneg_left h1 hiw0.le
  have h3 : (iw : ℝ) * ((1280 : ℝ) / (iw : ℝ)) = 1280 := by
    field_simp
  linarith

theorem scaled_height_ge (iw ih i N : ℕ) (hih : 1 ≤ ih) :
    (720 : ℝ) ≤ (ih : ℝ) * scaleFactor iw ih i N := by
  have hih0 : (0 : ℝ) < (ih : ℝ) := by exact_mod_cast hih
  have h1 : (720 : ℝ) / (ih : ℝ) ≤ scaleFactor iw ih i N :=
    le_trans (le_max_right _ _) (minFactor_le_scaleFactor iw ih i N)
  have h2 : (ih : ℝ) * ((720 : ℝ) / (ih : ℝ)) ≤ (ih : ℝ) * scaleFactor iw ih i N :=
    mul_le_mul_of_nonneg_left h1 hih0.le
  have h3 : (ih : ℝ) * ((720 : ℝ) / (ih : ℝ)) = 720 := by
    field_simp
  linarith

/-- C1: for every frame of the zoom style the computed crop window stays
inside the rounded scaled image: `0 ≤ left`, `0 ≤ top`,
`left + width ≤ scaledW`, `top + height ≤ scaledH`. -/
theorem C1_crop_window_within_scaled_image (iw ih i N : ℕ)
    (hiw : 1 ≤ iw) (hih : 1 ≤ ih) (hiN : i < N) :
    0 ≤ (cropWindow iw ih (scaleFactor iw ih i N)).left ∧
    0 ≤ (cropWindow iw ih (scaleFactor iw ih i N)).top ∧
    (cropWindow iw ih (scaleFactor iw ih i N)).left +
      (cropWindow iw ih (scaleFactor iw ih i N)).width ≤
      (cropWindow iw ih (scaleFactor iw ih i N)).scaledW ∧
    (cropWindow iw ih (scaleFactor iw ih i N)).top +
      (cropWindow iw ih (scaleFactor iw ih i N)).height ≤
      (cropWindow iw ih (scaleFactor iw ih i N)).scaledH := by
  have hW := scaled_width_ge iw ih i N hiw
  have hH := scaled_height_ge iw ih i N hih
  refine ⟨le_max_left _ _, le_max_left _ _, ?_, ?_⟩
  · have h := crop_axis_bound ((iw : ℝ) * scaleFactor iw ih i N) 1280 (by push_cast; linarith)
    simp only [cropWindow]
    push_cast at h
    exact h
  · have h := crop_axis_bound ((ih : ℝ) * scaleFactor iw ih i N) 720 (by push_cast; linarith)
    simp only [cropWindow]
    push_cast at h
    exact h

/-- Witness for C1 at `iw = 1280`, `ih = 720`, frame `0` of `150`. -/
theorem C1_witness :
    (1 ≤ 1280) ∧ (1 ≤ 720) ∧ (0 < 150) ∧
    (0 ≤ (cropWindow 1280 720 (scaleFactor 1280 720 0 150)).left ∧
     0 ≤ (cropWindow 1280 720 (scaleFactor 1280 720 0 150)).top ∧
     (cropWindow 1280 720 (scaleFactor 1280 720 0 150)).left +
       (cropWindow 1280 720 (scaleFactor 1280 720 0 150)).width ≤
       (cropWindow 1280 720 (scaleFactor 1280 720 0 150)).scaledW ∧
     (cropWindow 1280 720 (scaleFactor 1280 720 0 150)).top +
       (cropWindow 1280 720 (scaleFactor 1280 720 0 150)).height ≤
       (cropWindow 1280 720 (scaleFactor 1280 720 0 150)).scaledH) :=
  ⟨by norm_num, by norm_num, by norm_num,
   C1_crop_window_within_scaled_image 1280 720 0 150 (by norm_num) (by norm_num) (by norm_num)⟩

/-- C2: under the zoom style with `N > 1`, for frames `i ≤ j < N` the scale
factor is at least `minFactor` and is monotone non-decreasing in the frame
index. -/
theorem C2_scale_factor_min_and_monotone (iw ih i j N : ℕ)
    (hN : 1 < N) (hij : i ≤ j) (hj : j < N) :
    minFactor iw ih ≤ scaleFactor iw ih i N ∧
    scaleFactor iw ih i N ≤ scaleFactor iw ih j N := by
  refine ⟨minFactor_le_scaleFactor iw ih i N, ?_⟩
  have hN1 : N ≠ 1 := by omega
  have hden : (0 : ℝ) < (N : ℝ) - 1 := by
    have : (1 : ℝ) < (N : ℝ) := by exact_mod_cast hN
    linarith
  have ht0 : 0 ≤ tOf i N := by
    unfold tOf
    rw [if_neg hN1]
    positivity
  have htu : tOf i N ≤ tOf j N := by
    unfold tOf
    rw [if_neg hN1, if_neg hN1]
    have hij' : (i : ℝ) ≤ (j : ℝ) := by exact_mod_cast hij
    exact (div_le_div_iff_of_pos_right hden).mpr hij'
  have hu1 : tOf j N ≤ 1 := by
    unfold tOf
    rw [if_neg hN1]
    have hjN : (j : ℝ) ≤ (N : ℝ) - 1 := by
      have : (j : ℝ) + 1 ≤ (N : ℝ) := by exact_mod_cast hj
      linarith
    rw [div_le_one hden]
    linarith
  have hease := easeInOutSine_monotone ht0 htu hu1
  have hbase : 1 + 0.6 * easeInOutSine (tOf i N) ≤ 1 + 0.6 * easeInOutSine (tOf j N) := by
    linarith
  unfold scaleFactor
  exact max_le_max hbase (le_refl _)

/-- Witness for C2 at `iw = 1280`, `ih = 720`, frames `0 ≤ 1 < 150`. -/
theorem C2_witness :
    (1 < 150) ∧ (0 ≤ 1) ∧ (1 < 150) ∧
    (minFactor 1280 720 ≤ scaleFactor 1280 720 0 150 ∧
     scaleFactor 1280 720 0 150 ≤ scaleFactor 1280 720 1 150) :=
  ⟨by norm_num, by norm_num, by norm_num,
   C2_scale_factor_min_and_monotone 1280 720 0 1 150 (by norm_num) (by norm_num) (by norm_num)⟩

theorem replaceAll_append (c : Char) (rep xs ys : List Char) :
    replaceAll c rep (xs ++ ys) = replaceAll c rep xs ++ replaceAll c rep ys := by
  induction xs with
  | nil => rfl
  | cons x xs ih =>
    by_cases h : x = c
    · simp [replaceAll, h, ih]
    · simp [replaceAll, h, ih]

theorem escapeXmlZoom_append (xs ys : List Char) :
    escapeXmlZoom (xs ++ ys) = escapeXmlZoom xs ++ escapeXmlZoom ys := by
  simp [escapeXmlZoom, replaceAll_append]

theorem escapeXmlZoom_single (c : Char) : escapeXmlZoom [c] = escChar c := by
  by_cases h1 : c = '&'
  · subst h1; decide
  by_cases h2 : c = '<'
  · subst h2; decide
  by_cases h3 : c = '>'
  · subst h3; decide
  by_cases h4 : c = quotChar
  · subst h4; decide
  by_cases h5 : c = aposChar
  · subst h5; decide
  simp [escapeXmlZoom, replaceAll, escChar, h1, h2, h3, h4, h5]

theorem escapeXmlZoom_eq_bind (s : List Char) :
    escapeXmlZoom s = s.flatMap escChar := by
  induction s with
  | nil => rfl
  | cons c s ih =>
    have hc : c :: s = [c] ++ s := rfl
    rw [hc, escapeXmlZoom_append, escapeXmlZoom_single, ih]
    simp

theorem wellEscaped_escChar (c : Char) (rest : List Char) :
    wellEscaped (escChar c ++ rest) = wellEscaped rest := by
  by_cases h1 : c = '&'
  · subst h1
    simp +decide [escChar, ampEnt, wellEscaped]
  by_cases h2 : c = '<'
  · subst h2
    simp +decide [escChar, ltEnt, wellEscaped]
  by_cases h3 : c = '>'
  · subst h3
    simp +decide [escChar, gtEnt, wellEscaped]
  by_cases h4 : c = quotChar
  · subst h4
    simp +decide [escChar, quotEnt, wellEscaped]
  by_cases h5 : c = aposChar
  · subst h5
    simp +decide [escChar, aposEnt, wellEscaped]
  · simp only [escChar, h1, h2, h3, h4, h5, if_false, List.cons_append, List.nil_append,
      if_neg]
    conv_lhs => rw [wellEscaped.eq_def]
    simp [h1, h2, h3, h4, h5]

theorem wellEscaped_bind (s : List Char) : wellEscaped (s.flatMap escChar) = true := by
  induction s with
  | nil => rfl
  | cons c s ih =>
    rw [List.flatMap_cons, wellEscaped_escChar, ih]

/-- C8: the escaping applied to the overlay text is the same function in the
zoom and slide paths, maps each of the five XML metacharacters to its entity
(ampersand first) and every other character to itself, and its output never
contains a raw unescaped metacharacter: no `< > " '` at all, and every `&`
starts one of the five entities. -/
theorem C8_escape_xml_sound (s : List Char) :
    escapeXmlZoom s = escapeXmlSlide s ∧
    escapeXmlZoom s = s.flatMap escChar ∧
    wellEscaped (escapeXmlZoom s) = true := by
  refine ⟨rfl, escapeXmlZoom_eq_bind s, ?_⟩
  rw [escapeXmlZoom_eq_bind s]
  exact wellEscaped_bind s

/-- C7 counterexample: in the slide path with a 1296x720 source (canvas
1296x720) the code computes font size `max(28, round(1296/24)) = 54` while
`max(28, min(1296,720)/24) = 30`; in the zoom path with scaled dimensions
2048x1152 the code computes `48` while the canvas is 1280x720, for which the
claimed formula gives `30`.  Both overlay paths contradict the claim. -/
theorem C7_font_size_cex :
    ¬ (((slideSvgOverlay 1296 720).fontSize : ℚ) =
        specFontSize (slideSvgOverlay 1296 720).canvasW (slideSvgOverlay 1296 720).canvasH) ∧
    ¬ (((zoomSvgOverlay 2048 1152).fontSize : ℚ) =
        specFontSize (zoomSvgOverlay 2048 1152).canvasW (zoomSvgOverlay 2048 1152).canvasH) := by
  have hslide : slideTextFontSize 1296 = 54 := by
    unfold slideTextFontSize
    rw [show (((1296 : ℤ) : ℚ)) / 24 = ((54 : ℤ) : ℚ) by push_cast; norm_num, round_intCast]
    exact max_eq_right (by norm_num)
  have hzoom : zoomTextFontSize 2048 1152 = 48 := by
    unfold zoomTextFontSize
    rw [min_eq_right (by push_cast; norm_num : ((1152 : ℤ) : ℚ) ≤ ((2048 : ℤ) : ℚ))]
    rw [show (((1152 : ℤ) : ℚ)) / 24 = ((48 : ℤ) : ℚ) by push_cast; norm_num, round_intCast]
    exact max_eq_right (by norm_num)
  have hspecSlide : specFontSize 1296 720 = 30 := by
    unfold specFontSize
    rw [min_eq_right (by push_cast; norm_num : ((720 : ℤ) : ℚ) ≤ ((1296 : ℤ) : ℚ))]
    rw [show (((720 : ℤ) : ℚ)) / 24 = 30 by push_cast; norm_num]
    exact max_eq_right (by norm_num)
  have hspecZoom : specFontSize 1280 720 = 30 := by
    unfold specFontSize
    rw [min_eq_right (by push_cast; norm_num : ((720 : ℤ) : ℚ) ≤ ((1280 : ℤ) : ℚ))]
    rw [show (((720 : ℤ) : ℚ)) / 24 = 30 by push_cast; norm_num]
    exact max_eq_right (by norm_num)
  constructor
  · show ¬ ((slideTextFontSize 1296 : ℚ) = specFontSize 1296 720)
    rw [hslide, hspecSlide]
    norm_num
  · show ¬ ((zoomTextFontSize 2048 1152 : ℚ) = specFontSize 1280 720)
    rw [hzoom, hspecZoom]
    norm_num

/-- C7 amended: the zoom overlay is rendered onto a fixed 1280x720 SVG
canvas, but its font size is `max(28, round(min(scaledW, scaledH)/24))`
computed from the scaled image dimensions; the slide overlay font size is
`max(28, round(w/24))` using only the source image width.  Both are always at
least 28. -/
theorem C7_font_size_amended (scaledW scaledH w h : ℤ) :
    (zoomSvgOverlay scaledW scaledH).canvasW = 1280 ∧
    (zoomSvgOverlay scaledW scaledH).canvasH = 720 ∧
    (zoomSvgOverlay scaledW scaledH).fontSize =
      max 28 (round ((min scaledW scaledH : ℚ) / 24)) ∧
    28 ≤ (zoomSvgOverlay scaledW scaledH).fontSize ∧
    (slideSvgOverlay w h).canvasW = w ∧
    (slideSvgOverlay w h).canvasH = h ∧
    (slideSvgOverlay w h).fontSize = max 28 (round ((w : ℚ) / 24)) ∧
    28 ≤ (slideSvgOverlay w h).fontSize :=
  ⟨rfl, rfl, rfl, le_max_left _ _, rfl, rfl, rfl, le_max_left _ _⟩

/-- C10: an omitted `includeText` behaves as enabled: the overlay shows iff
a product name is present and non-empty after trimming; `includeText = true`
behaves identically, and only an explicit `includeText = false` disables the
overlay. -/
theorem trim_ne_nil_imp_ne_empty {s : String} (h : jsTrim s.toList ≠ []) : s ≠ "" := by
  intro he
  apply h
  rw [he]
  rfl

theorem showTextOf_none_some (s : String) :
    showTextOf none (some s) = true ↔ jsTrim s.toList ≠ [] := by
  unfold showTextOf jsFalsyStr
  rw [Option.getD_some]
  simp only [Bool.and_eq_true, decide_eq_true_eq]
  constructor
  · rintro ⟨⟨-, -⟩, hpos⟩ he
    rw [he] at hpos
    simp at hpos
  · intro h
    have hs : s ≠ "" := trim_ne_nil_imp_ne_empty h
    refine ⟨⟨by decide, ?_⟩, List.length_pos.mpr h⟩
    simp [hs]

/-- C10: an omitted `includeText` behaves as enabled: the overlay shows iff
a product name is present and non-empty after trimming; `includeText = true`
behaves identically, and only an explicit `includeText = false` disables the
overlay. -/
theorem C10_include_text_default_enabled (pn : Option String) :
    (showTextOf none pn = true ↔ ∃ s, pn = some s ∧ jsTrim s.toList ≠ []) ∧
    showTextOf (some true) pn = showTextOf none pn ∧
    showTextOf (some false) pn = false := by
  refine ⟨?_, ?_, ?_⟩
  · cases pn with
    | none =>
      constructor
      · intro h
        exact absurd h (by decide)
      · rintro ⟨s, hs, -⟩
        cases hs
    | some s =>
      rw [showTextOf_none_some s]
      constructor
      · intro h
        exact ⟨s, rfl, h⟩
      · rintro ⟨s', hs', h⟩
        rw [Option.some_inj] at hs'
        rw [hs']
        exact h
  · cases pn <;> rfl
  · simp [showTextOf]

/-- C4 counterexample: in a zoom run where the encode step throws, the
handler's `catch` returns without deleting anything, leaking the written
input image and the frames directory. -/
theorem C4_cleanup_cex :
    TmpFile.inputImage ∈ (handler httpPost bodyZoom true encodeFailFaults).created ∧
    TmpFile.framesDir ∈ (handler httpPost bodyZoom true encodeFailFaults).created ∧
    (handler httpPost bodyZoom true encodeFailFaults).deleted = [] ∧
    (handler httpPost bodyZoom true encodeFailFaults).result = .serverError := by
  decide

/-- C4 amended: every temporary file created by a run is removed before the
run returns on the success path; on failure paths the handler's `catch`
performs no cleanup, so files created before the error remain. -/
theorem C4_cleanup_success_path (method : String) (body : Body) (ffa : Bool) (t : TmpFile) :
    (t ∈ (handler method body ffa noFaults).created ↔
      t ∈ (handler method body ffa noFaults).deleted) := by
  unfold handler
  split
  · simp
  · split
    · simp
    · split
      · simp
      · split
        · simp
        · split
          · simp [noFaults]
          · split
            · simp [runZoom, noFaults]
              cases t <;> simp
            · rcases Bool.eq_false_or_eq_true
                (showTextOf body.includeText body.productName) with hs | hs <;>
                simp [runSlide, noFaults, hs] <;> cases t <;> simp

/-- C5: with valid parameters but no usable ffmpeg binary, the handler
returns the encoder-missing error before any storage get call and before any
image processing work: no events fire and no files are created. -/
theorem C5_missing_encoder_fails_fast (body : Body) (f : Faults)
    (hik : jsFalsyStr body.imageKey = false)
    (htid : jsFalsyStr body.templateId = false)
    (ht : (getTemplateById (body.templateId.getD emptyStr)).isSome = true) :
    handler httpPost body false f = ⟨.ffmpegMissing, [], [], []⟩ ∧
    Event.storageGet ∉ (handler httpPost body false f).events := by
  obtain ⟨t, htq⟩ := Option.isSome_iff_exists.mp ht
  have hmain : handler httpPost body false f = ⟨.ffmpegMissing, [], [], []⟩ := by
    unfold handler
    rw [if_neg (by simp [httpPost]), if_neg (by simp [hik, htid]), htq]
    simp
  refine ⟨hmain, ?_⟩
  rw [hmain]
  simp

/-- Witness for C5 on a fully valid zoom request. -/
theorem C5_witness :
    jsFalsyStr bodyZoom.imageKey = false ∧
    jsFalsyStr bodyZoom.templateId = false ∧
    (getTemplateById (bodyZoom.templateId.getD emptyStr)).isSome = true ∧
    (handler httpPost bodyZoom false noFaults = ⟨.ffmpegMissing, [], [], []⟩ ∧
     Event.storageGet ∉ (handler httpPost bodyZoom false noFaults).events) :=
  ⟨by decide, by decide, by decide,
   C5_missing_encoder_fails_fast bodyZoom noFaults (by decide) (by decide) (by decide)⟩

/-- C6 counterexample: a request with a whitespace-only product name and
`includeText = true` is not rejected: the handler proceeds to a successful
run with the text overlay silently disabled. -/
theorem C6_whitespace_text_not_rejected_cex :
    (handler httpPost bodyWhitespace true noFaults).result = .okUrl ∧
    (handler httpPost bodyWhitespace true noFaults).result ≠ .missingParams ∧
    (handler httpPost bodyWhitespace true noFaults).result ≠ .invalidTemplate ∧
    showTextOf bodyWhitespace.includeText bodyWhitespace.productName = false := by
  decide

/-- C6 amended: a missing image key or template id is rejected as
`missingParams`, and an unknown template id as `invalidTemplate`, each before
any processing; but an empty or whitespace-only product name with
`includeText = true` is not rejected — the run proceeds to success with the
overlay disabled. -/
theorem C6_validation_amended (body : Body) (s : String)
    (hik : jsFalsyStr body.imageKey = false)
    (htid : jsFalsyStr body.templateId = false)
    (ht : (getTemplateById (body.templateId.getD emptyStr)).isSome = true)
    (hpn : body.productName = some s)
    (hws : jsTrim s.toList = [])
    (hit : body.includeText = some true) :
    showTextOf body.includeText body.productName = false ∧
    (handler httpPost body true noFaults).result = .okUrl ∧
    (∀ b2 : Body, (jsFalsyStr b2.imageKey || jsFalsyStr b2.templateId) = true →
       handler httpPost b2 true noFaults = ⟨.missingParams, [], [], []⟩) ∧
    (∀ b2 : Body, jsFalsyStr b2.imageKey = false → jsFalsyStr b2.templateId = false →
       getTemplateById (b2.templateId.getD emptyStr) = none →
       handler httpPost b2 true noFaults = ⟨.invalidTemplate, [], [], []⟩) := by
  obtain ⟨t, htq⟩ := Option.isSome_iff_exists.mp ht
  refine ⟨?_, ?_, ?_, ?_⟩
  · unfold showTextOf
    rw [hit, hpn, Option.getD_some, hws]
    simp
  · unfold handler
    rw [if_neg (by simp [httpPost]), if_neg (by simp [hik, htid]), htq]
    by_cases hstyle : t.style = Style.zoom
    · simp [hstyle, runZoom, noFaults]
    · simp [hstyle, runSlide, noFaults]
  · intro b2 h2
    unfold handler
    rw [if_neg (by simp [httpPost]), if_pos h2]
  · intro b2 h2ik h2tid h2t
    unfold handler
    rw [if_neg (by simp [httpPost]), if_neg (by simp [h2ik, h2tid]), h2t]

/-- Witness for C6 on the whitespace-name request. -/
theorem C6_witness :
    jsFalsyStr bodyWhitespace.imageKey = false ∧
    jsFalsyStr bodyWhitespace.templateId = false ∧
    (getTemplateById (bodyWhitespace.templateId.getD emptyStr)).isSome = true ∧
    bodyWhitespace.productName = some threeSpaces ∧
    jsTrim threeSpaces.toList = [] ∧
    bodyWhitespace.includeText = some true ∧
    (showTextOf bodyWhitespace.includeText bodyWhitespace.productName = false ∧
     (handler httpPost bodyWhitespace true noFaults).result = .okUrl ∧
     (∀ b2 : Body, (jsFalsyStr b2.imageKey || jsFalsyStr b2.templateId) = true →
        handler httpPost b2 true noFaults = ⟨.missingParams, [], [], []⟩) ∧
     (∀ b2 : Body, jsFalsyStr b2.imageKey = false → jsFalsyStr b2.templateId = false →
        getTemplateById (b2.templateId.getD emptyStr) = none →
        handler httpPost b2 true noFaults = ⟨.invalidTemplate, [], [], []⟩)) :=
  ⟨by decide, by decide, by decide, rfl, by decide, rfl,
   C6_validation_amended bodyWhitespace threeSpaces (by decide) (by decide) (by decide) rfl
     (by decide) rfl⟩

theorem digitChar_inj_lt {a b : ℕ} (ha : a < 10) (hb : b < 10)
    (h : Nat.digitChar a = Nat.digitChar b) : a = b := by
  interval_cases a <;> interval_cases b <;> revert h <;> decide

theorem map_digitChar_inj : ∀ (l1 l2 : List ℕ), (∀ x ∈ l1, x < 10) → (∀ x ∈ l2, x < 10) →
    l1.map Nat.digitChar = l2.map Nat.digitChar → l1 = l2 := by
  intro l1
  induction l1 with
  | nil =>
    intro l2 _ _ h
    cases l2 with
    | nil => rfl
    | cons b bs => simp at h
  | cons a as ih =>
    intro l2 h1 h2 h
    cases l2 with
    | nil => simp at h
    | cons b bs =>
      simp only [List.map_cons, List.cons.injEq] at h
      have ha : a < 10 := h1 a (by simp)
      have hb : b < 10 := h2 b (by simp)
      have hab := digitChar_inj_lt ha hb h.1
      have htail := ih bs (fun x hx => h1 x (by simp [hx])) (fun x hx => h2 x (by simp [hx])) h.2
      rw [hab, htail]

theorem decimalRepr_ne_zero_str {n : ℕ} (hn : n ≠ 0) :
    ((Nat.digits 10 n).map Nat.digitChar).reverse ≠ ['0'] := by
  intro heq
  have h1 : (Nat.digits 10 n).map Nat.digitChar = ['0'] := by
    have h := congrArg List.reverse heq
    simpa using h
  have h2 : Nat.digits 10 n = [0] := by
    refine map_digitChar_inj _ [0] (fun x hx => Nat.digits_lt_base (by norm_num) hx) ?_ ?_
    · simp
    · simpa using h1
  have h3 := Nat.ofDigits_digits 10 n
  rw [h2] at h3
  simp [Nat.ofDigits] at h3
  exact hn h3.symm

theorem decimalRepr_inj {m n : ℕ} (h : decimalRepr m = decimalRepr n) : m = n := by
  unfold decimalRepr at h
  by_cases hm : m = 0 <;> by_cases hn : n = 0
  · rw [hm, hn]
  · rw [if_pos hm, if_neg hn] at h
    exact absurd h.symm (decimalRepr_ne_zero_str hn)
  · rw [if_neg hm, if_pos hn] at h
    exact absurd h (decimalRepr_ne_zero_str hm)
  · rw [if_neg hm, if_neg hn] at h
    have h1 : (Nat.digits 10 m).map Nat.digitChar = (Nat.digits 10 n).map Nat.digitChar := by
      have h2 := congrArg List.reverse h
      simpa using h2
    have h2 := map_digitChar_inj _ _
      (fun x hx => Nat.digits_lt_base (by norm_num) hx)
      (fun x hx => Nat.digits_lt_base (by norm_num) hx) h1
    have hm' := Nat.ofDigits_digits 10 m
    have hn' := Nat.ofDigits_digits 10 n
    rw [h2, hn'] at hm'
    exact hm'.symm

theorem tmpPath_inj (k1 k2 : PathKind) (t1 t2 : ℕ)
    (h : tmpPath k1 t1 = tmpPath k2 t2) : k1 = k2 ∧ t1 = t2 := by
  cases k1 <;> cases k2 <;> simp_all [tmpPath, pathHead, pathTail] <;>
    exact decimalRepr_inj h

/-- C9 counterexample: two distinct runs observing the same millisecond
clock value build identical temporary paths of every kind, so distinct
concurrent runs do collide. -/
theorem C9_same_timestamp_collision_cex :
    (⟨1, 1700000000000⟩ : RunCtx) ≠ ⟨2, 1700000000000⟩ ∧
    runPaths ⟨1, 1700000000000⟩ PathKind.inputImage =
      runPaths ⟨2, 1700000000000⟩ PathKind.inputImage ∧
    runPaths ⟨1, 1700000000000⟩ PathKind.outputVideo =
      runPaths ⟨2, 1700000000000⟩ PathKind.outputVideo ∧
    runPaths ⟨1, 1700000000000⟩ PathKind.framesDir =
      runPaths ⟨2, 1700000000000⟩ PathKind.framesDir ∧
    runPaths ⟨1, 1700000000000⟩ PathKind.slideInput =
      runPaths ⟨2, 1700000000000⟩ PathKind.slideInput := by
  refine ⟨by decide, rfl, rfl, rfl, rfl⟩

/-- C9 amended: temporary paths of two runs are distinct whenever the
`Date.now()` values they observe differ (and paths of different kinds never
collide); only runs sharing the same millisecond timestamp collide. -/
theorem C9_distinct_timestamp_paths (c1 c2 : RunCtx) (k1 k2 : PathKind)
    (h : k1 ≠ k2 ∨ c1.now ≠ c2.now) :
    runPaths c1 k1 ≠ runPaths c2 k2 := by
  intro he
  have hinj := tmpPath_inj k1 k2 c1.now c2.now he
  rcases h with h | h
  · exact h hinj.1
  · exact h hinj.2

/-- Witness for C9 on two runs one millisecond apart. -/
theorem C9_witness :
    (PathKind.inputImage ≠ PathKind.outputVideo ∨
      (⟨1, 1⟩ : RunCtx).now ≠ (⟨2, 2⟩ : RunCtx).now) ∧
    runPaths ⟨1, 1⟩ PathKind.inputImage ≠ runPaths ⟨2, 2⟩ PathKind.outputVideo :=
  ⟨Or.inr (by decide),
   C9_distinct_timestamp_paths ⟨1, 1⟩ ⟨2, 2⟩ .inputImage .outputVideo (Or.inr (by decide))⟩

end VideoGen
